import Mathlib

/-!
Shallow embedding of the wallet-keeper ethereum client
(`keeper/eth/client.go`) and its notification pipeline.

Balances are `float64` in the source; no arithmetic is performed on them
inside the embedded code paths (they are only compared for equality and
passed around), so they are modelled as rationals.  The external ethereum
RPC is modelled as an oracle `rpc : String → Option ℚ` mapping an address
to its balance, `none` meaning the RPC call fails.  The account/address
map and the balance snapshot are association lists with string keys,
mirroring the Go maps `accountAddressMap` and `accountBalanceMap`.
-/

namespace WalletKeeper

/-- Values occurring in an event payload: account names and addresses are
strings, balances are numbers. -/
inductive PValue where
  | str (s : String)
  | num (q : ℚ)
deriving DecidableEq, Repr

/-- Modelled from the spec: the notifier package is not under `src/`;
§3 of the spec defines an Event as `{type, payload, timestamp}` with the
payload a string-keyed mapping.  The timestamp plays no role in any claim
and is omitted. -/
structure Event where
  etype : String
  payload : List (String × PValue)
deriving DecidableEq, Repr

/-- Modelled from the spec: `notifier.NewEthBalanceChangeEvent` wraps the
given payload into a balance-change event (spec §3: type enum
`BalanceChanged`). -/
def NewEthBalanceChangeEvent (payload : List (String × PValue)) : Event :=
  ⟨"BalanceChanged", payload⟩

/-- Embedding of `client.getBalance`: on RPC failure Go returns the pair
`(0, err)`; on success it returns the converted balance and a nil error.
The boolean component records whether an error was returned. -/
def getBalance (rpc : String → Option ℚ) (address : String) : ℚ × Bool :=
  match rpc address with
  | none => (0, true)
  | some v => (v, false)

/-! ## Balance watcher (`client.accountBalanceWatcher`) and the seed loop
in `NewClient` -/

/-- One observable action of the watcher or the seed loop, in the order
the Go code performs them: writing an error to the log, sending an event
on the notifier channel, or assigning to `accountBalanceMap`. -/
inductive WatchAction where
  | logError
  | publish (e : Event)
  | setBalance (account : String) (v : ℚ)
deriving DecidableEq, Repr

/-- Embedding of one iteration of the loop in `refreshFunc` inside
`accountBalanceWatcher` (lines 436-459), for the snapshot entry
`(account, balance)`.  The Go code logs a lookup error but does not
`continue`: it falls through and compares `balance` with the zero value
returned alongside the error. -/
def refreshStep (rpc : String → Option ℚ) (aam : String → Option String)
    (account : String) (balance : ℚ) : List WatchAction :=
  match aam account with
  | none => []
  | some address =>
    let r := getBalance rpc address
    let newBalance := r.1
    (if r.2 then [WatchAction.logError] else []) ++
    (if balance ≠ newBalance then
      [WatchAction.publish (NewEthBalanceChangeEvent
        [("account", PValue.str account),
         ("address", PValue.str address),
         ("newBalance", PValue.num newBalance),
         ("balance", PValue.num balance)]),
       WatchAction.setBalance account newBalance]
     else [])

/-- Embedding of `refreshFunc`: iterate `refreshStep` over every entry of
the balance snapshot (one full sweep), collecting the actions in order. -/
def refreshFunc (rpc : String → Option ℚ) (aam : String → Option String)
    (abm : List (String × ℚ)) : List WatchAction :=
  (abm.map (fun p => refreshStep rpc aam p.1 p.2)).flatten

/-- Go map assignment `m[k] = v` on an association list: replace the
value of an existing key, otherwise append a new entry. -/
def setAssoc (m : List (String × ℚ)) (k : String) (v : ℚ) :
    List (String × ℚ) :=
  if m.any (fun p => p.1 == k) then
    m.map (fun p => if p.1 == k then (k, v) else p)
  else m ++ [(k, v)]

/-- Effect of one watch action on the balance snapshot: only
`setBalance` mutates it. -/
def applyAction (m : List (String × ℚ)) : WatchAction → List (String × ℚ)
  | WatchAction.setBalance a v => setAssoc m a v
  | _ => m

/-- Balance snapshot after a sequence of watch actions. -/
def applyActions (m : List (String × ℚ)) (acts : List WatchAction) :
    List (String × ℚ) :=
  acts.foldl applyAction m

/-- Embedding of one iteration of the seed loop in `NewClient`
(lines 130-136): look up the balance of `address`, log a failure at debug
level, and assign the returned value (zero on failure) to the snapshot
entry of `account`.  No event is constructed anywhere in the loop. -/
def seedStep (rpc : String → Option ℚ) (account address : String) :
    List WatchAction :=
  let r := getBalance rpc address
  (if r.2 then [WatchAction.logError] else []) ++
  [WatchAction.setBalance account r.1]

/-- Embedding of the seed loop in `NewClient`: one `seedStep` per entry
of the account/address map. -/
def seedActions (rpc : String → Option ℚ) (aam : List (String × String)) :
    List WatchAction :=
  (aam.map (fun p => seedStep rpc p.1 p.2)).flatten

/-! ## ListAccountsMinConf (`client.ListAccountsMinConf`) -/

/-- Embedding of `client.ListAccountsMinConf` (lines 243-257): one entry
per account of the account/address map; a failed lookup is logged and the
entry is set to `0`; the error component of the result is always nil
(`return accounts, nil`).  The `conf` argument is ignored by the code. -/
def ListAccountsMinConf (rpc : String → Option ℚ)
    (aam : List (String × String)) (conf : Int) :
    List (String × ℚ) × Option String :=
  (aam.map (fun p =>
    let r := getBalance rpc p.2
    if r.2 then (p.1, (0 : ℚ)) else (p.1, r.1)), none)

/-! ## Address validation (`common.IsHexAddress` from go-ethereum) -/

/-- Embedding of go-ethereum `isHexCharacter`: `c` is in `0-9`, `a-f` or
`A-F`. -/
def isHexCharacter (c : Char) : Bool :=
  (decide ('0' ≤ c) && decide (c ≤ '9')) ||
  (decide ('a' ≤ c) && decide (c ≤ 'f')) ||
  (decide ('A' ≤ c) && decide (c ≤ 'F'))

/-- Embedding of go-ethereum `isHex`: even length and all hex characters. -/
def isHex (cs : List Char) : Bool :=
  cs.length % 2 == 0 && cs.all isHexCharacter

/-- Embedding of go-ethereum `has0xPrefix`: the string starts with `0x`
or `0X`. -/
def hexMarked (cs : List Char) : Bool :=
  match cs with
  | '0' :: c :: _ => c == 'x' || c == 'X'
  | _ => false

/-- Embedding of go-ethereum `common.IsHexAddress`: after stripping an
optional `0x`/`0X` mark, exactly `2 * AddressLength = 40` hex
characters. -/
def IsHexAddress (s : String) : Bool :=
  let cs := if hexMarked s.data then s.data.drop 2 else s.data
  cs.length == 40 && isHex cs

/-! ## SendFrom (`client.SendFrom`) -/

/-- Outcome of the validation part of `SendFrom`: either the
invalid-address error, or the function proceeds to build, sign and
broadcast a transaction from `fromAddr` to `toAddr` (the remaining RPC
steps are external and not needed by any claim). -/
inductive SendFromResult where
  | invalidAddress
  | send (fromAddr toAddr : String)
deriving DecidableEq, Repr

/-- Embedding of the tail of `client.SendFrom` after the account-map
block: validate both addresses, then proceed to the transaction path. -/
def sendFromAddrChecks (hexFromAddress hexToAddress : String) : SendFromResult :=
  if !IsHexAddress hexFromAddress then .invalidAddress
  else if !IsHexAddress hexToAddress then .invalidAddress
  else .send hexFromAddress hexToAddress

/-- Embedding of `client.SendFrom` (lines 265-281).  In the Go source the
statement `hexFromAddress, found := client.accountAddressMap[account]`
declares a new inner `hexFromAddress` that shadows the outer one (the
blank assignment `_ = hexFromAddress` silences the unused-variable
check), so the looked-up address is discarded and the outer variable
still holds `account` after the block. -/
def SendFrom (accountAddressMap : String → Option String)
    (account hexToAddress : String) : SendFromResult :=
  let hexFromAddress := account
  if !IsHexAddress account then
    match accountAddressMap account with
    | none => .invalidAddress
    | some _shadowed => sendFromAddrChecks hexFromAddress hexToAddress
  else
    sendFromAddrChecks hexFromAddress hexToAddress

/-! ## Receiver installation (`client.AddRoutes`, install handler) -/

/-- Modelled from the spec: the notifier package's `Receiver` is not
under `src/`; spec §3 defines a subscription as endpoint, subscribed
event types and retry budget (the id is the registry key, kept outside
the record). -/
structure Receiver where
  endpoint : String
  eventTypes : List String
  maxRetries : Nat
deriving DecidableEq, Repr

/-- Modelled from the spec: `notifier.NewReceiver` packages its three
arguments into a subscription record. -/
def NewReceiver (endpoint : String) (eventTypes : List String)
    (maxRetries : Nat) : Receiver :=
  ⟨endpoint, eventTypes, maxRetries⟩

/-- Split a character list at every occurrence of `sep`, as Go's
`genSplit` does for a one-byte separator: the empty input yields the
singleton list holding the empty string, and a trailing separator yields
a trailing empty string. -/
def goSplitChars (sep : Char) : List Char → List String
  | [] => [""]
  | c :: cs =>
    if c = sep then
      "" :: goSplitChars sep cs
    else
      match goSplitChars sep cs with
      | [] => [String.mk [c]]
      | s :: rest => String.mk (c :: s.data) :: rest

/-- Embedding of `strings.SplitN(s, sep, -1)` for a one-character
separator (the handler always passes `","`): split at every occurrence
of `sep`. -/
def goSplitN (s : String) (sep : Char) : List String :=
  goSplitChars sep s.data

/-- The JSON body the install route binds
(`{retryCount, endpoint, eventTypes}`). -/
structure InstallParams where
  retryCount : Nat
  endpoint : String
  eventTypes : String
deriving DecidableEq, Repr

/-- Embedding of the `/notifiers/install` handler in `AddRoutes`
(lines 349-366).  `bindResult` is `some params` when `c.ShouldBind`
returns nil and `none` when binding fails.  On success the handler
builds a receiver from the bound fields — with no validation of the
endpoint — and installs it under a fresh uuid; on bind failure it does
nothing at all (no receiver stored, no error written to the response,
which therefore goes out as a default 200). -/
def installHandler (bindResult : Option InstallParams)
    (registry : List (String × Receiver)) (freshId : String) :
    List (String × Receiver) :=
  match bindResult with
  | some p =>
    registry ++ [(freshId, NewReceiver p.endpoint (goSplitN p.eventTypes (',')) p.retryCount)]
  | none => registry

/-! ## Event bus (spec §4.3, §5) -/

/-- Modelled from the spec: the EventBus lives in the notifier package,
absent from `src/`.  Spec §4.3 describes a bounded hand-off channel
between one producer and one consumer.  The state records the events the
producer still has to publish, the buffer contents, and the events the
consumer has taken off the bus, in order. -/
structure BusState where
  pending : List Event
  buf : List Event
  dispatched : List Event
deriving DecidableEq, Repr

/-- Modelled from the spec: one step of the producer/consumer system
over a bus of capacity `cap`.  A publish is only enabled while the
buffer has room — a producer facing a full buffer blocks and its event
stays pending, it is never dropped.  A consume takes the oldest buffered
event and dispatches it. -/
inductive BusStep (cap : Nat) : BusState → BusState → Prop where
  | publish (e : Event) (rest buf dis : List Event)
      (hroom : buf.length < cap) :
      BusStep cap ⟨e :: rest, buf, dis⟩ ⟨rest, buf ++ [e], dis⟩
  | consume (pend : List Event) (e : Event) (rest dis : List Event) :
      BusStep cap ⟨pend, e :: rest, dis⟩ ⟨pend, rest, dis ++ [e]⟩

/-- Reflexive-transitive closure of `BusStep`: the states a run of the
producer and consumer can reach. -/
inductive BusReach (cap : Nat) : BusState → BusState → Prop where
  | refl (s : BusState) : BusReach cap s s
  | tail {s t u : BusState} (h : BusReach cap s t) (hs : BusStep cap t u) :
      BusReach cap s u

end WalletKeeper

namespace WalletKeeper

/-- C1: the claim says a failed balance lookup leaves the snapshot entry
untouched and publishes no event for that account.  Evaluating the
embedded sweep at a failing lookup for `"alice"` (snapshot balance 10)
shows the code instead logs, publishes a balance-change event carrying
`newBalance = 0`, and overwrites the snapshot entry with 0: the error is
logged but the loop body falls through and treats the zero error
placeholder as the new balance. -/
theorem refresh_lookupFailure_publishes_and_zeroes :
    refreshFunc (fun _ => none)
        (fun a => if a = "alice" then some "0xAAA" else none)
        [("alice", 10)] =
      [WatchAction.logError,
       WatchAction.publish (NewEthBalanceChangeEvent
         [("account", PValue.str "alice"),
          ("address", PValue.str "0xAAA"),
          ("newBalance", PValue.num 0),
          ("balance", PValue.num 10)]),
       WatchAction.setBalance "alice" 0] ∧
    applyActions [("alice", 10)]
      (refreshFunc (fun _ => none)
        (fun a => if a = "alice" then some "0xAAA" else none)
        [("alice", 10)]) = [("alice", 0)] := by
  decide

/-- C2: on a successful lookup the watcher compares the returned balance
to the stored snapshot value with exact equality; if they differ it
publishes a balance-change event carrying the old and the new value and
then updates the snapshot entry to the new value; if they are equal it
publishes nothing and performs no mutation. -/
theorem refresh_success_exact_diff
    (rpc : String → Option ℚ) (aam : String → Option String)
    (account address : String) (balance v : ℚ)
    (haam : aam account = some address) (hrpc : rpc address = some v) :
    refreshStep rpc aam account balance =
      if balance = v then []
      else [WatchAction.publish (NewEthBalanceChangeEvent
              [("account", PValue.str account),
               ("address", PValue.str address),
               ("newBalance", PValue.num v),
               ("balance", PValue.num balance)]),
            WatchAction.setBalance account v] := by
  by_cases h : balance = v <;>
    simp [refreshStep, getBalance, haam, hrpc, h]

/-- C2 witness: account `"alice"` with snapshot balance 10 and a lookup
returning 12 yields exactly one published event (old 10, new 12)
followed by the snapshot update to 12. -/
theorem refresh_success_exact_diff_witness :
    refreshStep (fun _ => some 12) (fun _ => some "0xAAA") "alice" 10 =
      if (10 : ℚ) = 12 then []
      else [WatchAction.publish (NewEthBalanceChangeEvent
              [("account", PValue.str "alice"),
               ("address", PValue.str "0xAAA"),
               ("newBalance", PValue.num 12),
               ("balance", PValue.num 10)]),
            WatchAction.setBalance "alice" 12] :=
  refresh_success_exact_diff _ _ "alice" "0xAAA" 10 12 rfl rfl

/-- Any event published by one iteration of the sweep is the
balance-change event built from that iteration's account, its address,
the freshly looked-up value and the pre-sweep snapshot value. -/
lemma publish_mem_refreshStep {rpc : String → Option ℚ}
    {aam : String → Option String} {account : String} {balance : ℚ}
    {e : Event}
    (he : WatchAction.publish e ∈ refreshStep rpc aam account balance) :
    ∃ address, aam account = some address ∧
      e = NewEthBalanceChangeEvent
        [("account", PValue.str account),
         ("address", PValue.str address),
         ("newBalance", PValue.num (getBalance rpc address).1),
         ("balance", PValue.num balance)] := by
  cases haam : aam account with
  | none => simp [refreshStep, haam] at he
  | some address =>
    refine ⟨address, rfl, ?_⟩
    simp only [refreshStep, haam, List.mem_append] at he
    rcases he with he | he
    · cases hr : (getBalance rpc address).2 <;> simp [hr] at he
    · by_cases hb : balance = (getBalance rpc address).1 <;>
        simp [hb] at he
      exact he

/-- Any event published during a full sweep comes from some snapshot
entry and has the payload shape fixed by `refreshStep`. -/
lemma publish_mem_refreshFunc {rpc : String → Option ℚ}
    {aam : String → Option String} {abm : List (String × ℚ)} {e : Event}
    (he : WatchAction.publish e ∈ refreshFunc rpc aam abm) :
    ∃ account balance address,
      (account, balance) ∈ abm ∧ aam account = some address ∧
      e = NewEthBalanceChangeEvent
        [("account", PValue.str account),
         ("address", PValue.str address),
         ("newBalance", PValue.num (getBalance rpc address).1),
         ("balance", PValue.num balance)] := by
  induction abm with
  | nil => simp [refreshFunc] at he
  | cons p rest ih =>
    simp only [refreshFunc, List.map_cons, List.flatten_cons,
      List.mem_append] at he
    rcases he with he | he
    · obtain ⟨address, haam, hev⟩ := publish_mem_refreshStep he
      exact ⟨p.1, p.2, address, by simp, haam, hev⟩
    · obtain ⟨a, b, ad, hm, haam, hev⟩ := ih (by simpa [refreshFunc] using he)
      exact ⟨a, b, ad, List.mem_cons_of_mem _ hm, haam, hev⟩

/-- C3 counterexample: at a concrete changed balance the single event
published by the sweep step has payload keys `account`, `address`,
`newBalance` and `balance` — the key `oldBalance` stated by the claim is
not among them, so the payload does not contain exactly the claimed key
set. -/
theorem refresh_event_keys_counterexample :
    (refreshStep (fun _ => some 12) (fun _ => some "0xAAA") "alice" 10).filterMap
        (fun a => match a with
          | WatchAction.publish e => some (e.payload.map Prod.fst)
          | _ => none) =
      [["account", "address", "newBalance", "balance"]] ∧
    ¬ ("oldBalance" ∈ ["account", "address", "newBalance", "balance"]) := by
  decide

/-- C3 (amended): every published balance-change event's payload is a
mapping with exactly the keys `account`, `address`, `newBalance` and
`balance`, where `balance` carries the snapshot value before the sweep
and `newBalance` the freshly looked-up value. -/
theorem refresh_event_payload_shape
    (rpc : String → Option ℚ) (aam : String → Option String)
    (abm : List (String × ℚ)) (e : Event)
    (he : WatchAction.publish e ∈ refreshFunc rpc aam abm) :
    ∃ account balance address,
      (account, balance) ∈ abm ∧ aam account = some address ∧
      e.payload =
        [("account", PValue.str account),
         ("address", PValue.str address),
         ("newBalance", PValue.num (getBalance rpc address).1),
         ("balance", PValue.num balance)] := by
  obtain ⟨a, b, ad, hm, haam, hev⟩ := publish_mem_refreshFunc he
  exact ⟨a, b, ad, hm, haam, by rw [hev]; rfl⟩

/-- C3 witness: the event published for `"alice"` (snapshot 10, lookup
12) has the amended payload shape. -/
theorem refresh_event_payload_shape_witness :
    ∃ account balance address,
      (account, balance) ∈ [(("alice" : String), (10 : ℚ))] ∧
      (fun _ : String => some "0xAAA") account = some address ∧
      (NewEthBalanceChangeEvent
        [("account", PValue.str "alice"),
         ("address", PValue.str "0xAAA"),
         ("newBalance", PValue.num 12),
         ("balance", PValue.num 10)]).payload =
        [("account", PValue.str account),
         ("address", PValue.str address),
         ("newBalance", PValue.num (getBalance (fun _ => some 12) address).1),
         ("balance", PValue.num balance)] :=
  refresh_event_payload_shape (fun _ => some 12) (fun _ => some "0xAAA")
    [("alice", 10)] _ (by decide)

/-- Unfolding of the seed loop over a cons cell. -/
lemma seedActions_cons (rpc : String → Option ℚ) (p : String × String)
    (rest : List (String × String)) :
    seedActions rpc (p :: rest) =
      seedStep rpc p.1 p.2 ++ seedActions rpc rest := by
  simp [seedActions]

/-- Folding watch actions distributes over list append. -/
lemma applyActions_append (m : List (String × ℚ)) (xs ys : List WatchAction) :
    applyActions m (xs ++ ys) = applyActions (applyActions m xs) ys := by
  simp [applyActions, List.foldl_append]

/-- Assigning an absent key appends a fresh entry. -/
lemma setAssoc_of_not_mem (m : List (String × ℚ)) (k : String) (v : ℚ)
    (h : k ∉ m.map Prod.fst) : setAssoc m k v = m ++ [(k, v)] := by
  have hany : m.any (fun p => p.1 == k) = false := by
    rw [List.any_eq_false]
    intro p hp
    simp only [beq_iff_eq]
    exact fun hpk => h (List.mem_map.mpr ⟨p, hp, hpk⟩)
  simp [setAssoc, hany]

/-- One seed iteration assigns the looked-up balance (zero on failure)
to its account, whether or not it also logged. -/
lemma applyActions_seedStep (m : List (String × ℚ))
    (rpc : String → Option ℚ) (a ad : String) :
    applyActions m (seedStep rpc a ad) = setAssoc m a (getBalance rpc ad).1 := by
  cases hr : (getBalance rpc ad).2 <;>
    simp [seedStep, applyActions, applyAction, hr]

/-- The seed loop never constructs an event. -/
lemma publish_not_mem_seedActions (rpc : String → Option ℚ)
    (aam : List (String × String)) (e : Event) :
    WatchAction.publish e ∉ seedActions rpc aam := by
  induction aam with
  | nil => simp [seedActions]
  | cons p rest ih =>
    rw [seedActions_cons]
    simp only [List.mem_append, not_or]
    refine ⟨?_, ih⟩
    cases hr : (getBalance rpc p.2).2 <;> simp [seedStep, hr]

/-- Running the seed loop over a map with distinct account names, on a
snapshot disjoint from those names, appends one entry per account
holding the looked-up balance. -/
lemma applyActions_seedActions (rpc : String → Option ℚ)
    (aam : List (String × String)) (m : List (String × ℚ))
    (hnd : (aam.map Prod.fst).Nodup)
    (hdisj : ∀ k ∈ aam.map Prod.fst, k ∉ m.map Prod.fst) :
    applyActions m (seedActions rpc aam) =
      m ++ aam.map (fun p => (p.1, (getBalance rpc p.2).1)) := by
  induction aam generalizing m with
  | nil => simp [seedActions, applyActions]
  | cons p rest ih =>
    simp only [List.map_cons, List.nodup_cons] at hnd
    rw [seedActions_cons, applyActions_append, applyActions_seedStep,
      setAssoc_of_not_mem _ _ _ (hdisj p.1 (by simp))]
    rw [ih _ hnd.2 ?hdisj]
    · simp
    case hdisj =>
      intro k hk
      simp only [List.map_append, List.mem_append, List.map_cons,
        List.map_nil, List.mem_singleton, not_or]
      constructor
      · exact hdisj k (by simp [hk])
      · intro hkp
        exact hnd.1 (hkp ▸ hk)

/-- C6: the seed loop in `NewClient` seeds the snapshot by one direct
balance lookup per entry of the account/address map — producing exactly
one snapshot entry per account, holding the looked-up value — and
publishes no event. -/
theorem seed_snapshot_no_events
    (rpc : String → Option ℚ) (aam : List (String × String))
    (hnd : (aam.map Prod.fst).Nodup) :
    (∀ e : Event, WatchAction.publish e ∉ seedActions rpc aam) ∧
    applyActions [] (seedActions rpc aam) =
      aam.map (fun p => (p.1, (getBalance rpc p.2).1)) := by
  refine ⟨fun e => publish_not_mem_seedActions rpc aam e, ?_⟩
  simpa using applyActions_seedActions rpc aam [] hnd (by simp)

/-- C6 witness: seeding from the map `{alice ↦ 0xAAA}` with a lookup
returning 7 yields the snapshot `{alice ↦ 7}`. -/
theorem seed_snapshot_no_events_witness :
    applyActions [] (seedActions (fun _ => some 7) [("alice", "0xAAA")]) =
      [("alice", (7 : ℚ))] := by
  have h := (seed_snapshot_no_events (fun _ => some 7)
    [("alice", "0xAAA")] (by decide)).2
  simpa [getBalance] using h

/-- C10: `ListAccountsMinConf` always returns a nil error, returns one
entry per account of the account/address map (in order), and reports
balance 0 for every account whose balance lookup fails, so one failed
lookup never aborts the listing of the others. -/
theorem listAccountsMinConf_total
    (rpc : String → Option ℚ) (aam : List (String × String)) (conf : Int) :
    (ListAccountsMinConf rpc aam conf).2 = none ∧
    (ListAccountsMinConf rpc aam conf).1.map Prod.fst = aam.map Prod.fst ∧
    ∀ a addr, (a, addr) ∈ aam → rpc addr = none →
      (a, (0 : ℚ)) ∈ (ListAccountsMinConf rpc aam conf).1 := by
  refine ⟨rfl, ?_, ?_⟩
  · simp only [ListAccountsMinConf, List.map_map]
    refine List.map_congr_left ?_
    intro p _
    by_cases h : (getBalance rpc p.2).2 <;> simp [h]
  · intro a addr hmem hrpc
    simp only [ListAccountsMinConf]
    refine List.mem_map.mpr ⟨(a, addr), hmem, ?_⟩
    simp [getBalance, hrpc]

/-- C10 witness: with a map holding `alice` and every lookup failing,
the listing still returns a nil error and the entry `(alice, 0)`. -/
theorem listAccountsMinConf_total_witness :
    (ListAccountsMinConf (fun _ => none) [("alice", "0xAAA")] 0).2 = none ∧
    ("alice", (0 : ℚ)) ∈ (ListAccountsMinConf (fun _ => none) [("alice", "0xAAA")] 0).1 := by
  have h := listAccountsMinConf_total (fun _ => none) [("alice", "0xAAA")] 0
  exact ⟨h.1, h.2.2 "alice" "0xAAA" (by simp) rfl⟩

/-- C4 counterexample: the install body with retry count 0, empty
endpoint and event types `"x"` binds successfully, so the handler stores
a receiver with the empty endpoint instead of rejecting the request: the
empty registry grows to one entry. -/
theorem install_empty_endpoint_stored_counterexample :
    installHandler (some ⟨0, "", "x"⟩) [] "id0" =
      [("id0", Receiver.mk "" ["x"] 0)] := by
  decide

/-- C4 (amended): a request whose body fails to bind is silently
ignored — no receiver is stored but no client-visible error is produced
either (the handler writes nothing, so the default success response goes
out) — while a request that binds, even one with an empty or
unparseable endpoint, is installed without any validation; in both
cases every previously installed subscription is preserved unchanged as
a prefix of the registry. -/
theorem install_no_validation
    (registry : List (String × Receiver)) (freshId : String) :
    installHandler none registry freshId = registry ∧
    ∀ p : InstallParams,
      installHandler (some p) registry freshId =
        registry ++ [(freshId,
          NewReceiver p.endpoint (goSplitN p.eventTypes (',')) p.retryCount)] :=
  ⟨rfl, fun _ => rfl⟩

/-- C7: for every well-formed (successfully bound) install request, the
installed receiver's event-type list is the split of the request's
`eventTypes` string at every comma, its endpoint is the request's
endpoint string, and its retry budget is the request's `retryCount`. -/
theorem install_receiver_fields (p : InstallParams)
    (registry : List (String × Receiver)) (freshId : String) :
    installHandler (some p) registry freshId =
      registry ++ [(freshId,
        { endpoint := p.endpoint,
          eventTypes := goSplitN p.eventTypes (','),
          maxRetries := p.retryCount })] := rfl

/-- C9: installing a receiver with the empty `eventTypes` string
subscribes it to exactly one event type, the empty string, because the
Go split of the empty string at commas is the one-element list holding
the empty string. -/
theorem install_empty_eventTypes_singleton
    (retryCount : Nat) (endpoint freshId : String)
    (registry : List (String × Receiver)) :
    installHandler (some ⟨retryCount, endpoint, ""⟩) registry freshId =
      registry ++ [(freshId, Receiver.mk endpoint [""] retryCount)] := by
  have h : goSplitN "" (',') = [""] := rfl
  simp [installHandler, NewReceiver, h]

/-- C8: when the `account` argument of `SendFrom` is not itself a hex
address, the call returns the invalid-address error and never reaches the
transaction path, whatever the account/address map contains — the address
looked up from the map is shadowed away and never used. -/
theorem sendFrom_nonHexAccount_invalidAddress
    (m : String → Option String) (account hexToAddress : String)
    (h : IsHexAddress account = false) :
    SendFrom m account hexToAddress = SendFromResult.invalidAddress := by
  unfold SendFrom sendFromAddrChecks
  rcases hm : m account with _ | addr <;> simp [h, hm]

/-- C8 witness: the account name `"alice"` is not a hex address; even
with `"alice"` present in the account/address map bound to a valid hex
address, `SendFrom` returns the invalid-address error. -/
theorem sendFrom_nonHexAccount_invalidAddress_witness :
    SendFrom
      (fun a => if a = "alice"
                then some "0xAAAAAAAAAAAAAAAAAAAAAAAAAAAAAAAAAAAAAAAA"
                else none)
      "alice" "0xBBBBBBBBBBBBBBBBBBBBBBBBBBBBBBBBBBBBBBBB"
      = SendFromResult.invalidAddress :=
  sendFrom_nonHexAccount_invalidAddress _ "alice" _ (by decide)

/-- Every bus step conserves the sequence of events: what has been
dispatched, what sits in the buffer and what is still pending always
concatenates to the same list. -/
lemma busStep_conserves {cap : Nat} {s t : BusState} (h : BusStep cap s t) :
    t.dispatched ++ t.buf ++ t.pending = s.dispatched ++ s.buf ++ s.pending := by
  cases h <;> simp

/-- C5: over a bus of any capacity, any state reachable from `k` pending
events with empty buffer satisfies: dispatched, buffered and pending
events together are exactly the `k` published events in order (none is
ever dropped — a publish onto a full buffer is simply not enabled, so
the producer blocks and its event stays pending); once the consumer has
drained everything, all `k` events have been dispatched; and from any
undrained reachable state with capacity at least 1 a further step is
enabled, so draining can always resume. -/
theorem bus_backpressure_no_loss (cap : Nat) (events : List Event)
    (s : BusState) (h : BusReach cap ⟨events, [], []⟩ s) :
    s.dispatched ++ s.buf ++ s.pending = events ∧
    (s.pending = [] → s.buf = [] → s.dispatched = events) ∧
    (1 ≤ cap → s.pending ≠ [] ∨ s.buf ≠ [] → ∃ t, BusStep cap s t) := by
  have hinv : s.dispatched ++ s.buf ++ s.pending = events := by
    induction h with
    | refl => simp
    | tail h hs ih => rw [busStep_conserves hs]; exact ih
  refine ⟨hinv, ?_, ?_⟩
  · intro hp hb
    simpa [hp, hb] using hinv
  · intro hcap hne
    obtain ⟨pend, buf, dis⟩ := s
    cases buf with
    | nil =>
      cases pend with
      | nil => simp at hne
      | cons e rest =>
        exact ⟨_, BusStep.publish e rest [] dis (by simpa using hcap)⟩
    | cons e rest => exact ⟨_, BusStep.consume pend e rest dis⟩

/-- C5 witness: on a capacity-1 bus, publishing two events alternated
with two consumes reaches the fully drained state with both events
dispatched in order. -/
theorem bus_backpressure_no_loss_witness :
    (BusState.mk [] [] [NewEthBalanceChangeEvent [], Event.mk "T" []]).dispatched =
      [NewEthBalanceChangeEvent [], Event.mk "T" []] := by
  have h1 : BusStep 1 ⟨[NewEthBalanceChangeEvent [], Event.mk "T" []], [], []⟩
      ⟨[Event.mk "T" []], [NewEthBalanceChangeEvent []], []⟩ :=
    BusStep.publish _ _ [] [] (by decide)
  have h2 : BusStep 1 ⟨[Event.mk "T" []], [NewEthBalanceChangeEvent []], []⟩
      ⟨[Event.mk "T" []], [], [NewEthBalanceChangeEvent []]⟩ :=
    BusStep.consume _ _ [] []
  have h3 : BusStep 1 ⟨[Event.mk "T" []], [], [NewEthBalanceChangeEvent []]⟩
      ⟨[], [Event.mk "T" []], [NewEthBalanceChangeEvent []]⟩ :=
    BusStep.publish _ _ [] [NewEthBalanceChangeEvent []] (by decide)
  have h4 : BusStep 1 ⟨[], [Event.mk "T" []], [NewEthBalanceChangeEvent []]⟩
      ⟨[], [], [NewEthBalanceChangeEvent [], Event.mk "T" []]⟩ :=
    BusStep.consume _ _ [] [NewEthBalanceChangeEvent []]
  have hreach : BusReach 1
      ⟨[NewEthBalanceChangeEvent [], Event.mk "T" []], [], []⟩
      ⟨[], [], [NewEthBalanceChangeEvent [], Event.mk "T" []]⟩ :=
    BusReach.tail (BusReach.tail (BusReach.tail
      (BusReach.tail (BusReach.refl _) h1) h2) h3) h4
  exact (bus_backpressure_no_loss 1 _ _ hreach).2.1 rfl rfl

end WalletKeeper
